import Mathlib

/-!
# Verification of the flood-screenshot analyzer

Shallow embedding of `analyze_screenshots.py`.  The script opens an image,
samples a 100x100 window centred at `(width // 2, height // 2)`, counts
"blue" pixels via `b > 100 and b > r * 1.3 and b > g * 1.1`, computes the
blue ratio and average colour of the sampled pixels, and classifies the
image as flooded when the blue ratio exceeds 0.1.  `main` batches this over
a directory in one of two modes selected by filename prefix.

Numeric modelling notes (exhaustively checked against CPython semantics):
* the float comparisons `b > r * 1.3` and `b > g * 1.1` on 8-bit channels
  agree with the exact rational comparisons for every pair of channel
  values in 0..255, so the predicate is embedded over `ℚ`;
* `blue_ratio > 0.1` on doubles agrees with the exact rational comparison
  `p / t > 1/10` for every reachable pair `p ≤ t ≤ 10000`;
* Python's `round` on a float quotient of small integers agrees with
  half-to-even rounding of the exact rational, except for `round(x, 4)`
  exactly at odd multiples of 1/20000 that are not binary-representable,
  where the double's representation error decides the direction.  The
  embedding uses half-to-even throughout; no theorem below depends on
  those tie points.
-/

/-- A decoded raster image: dimensions plus a pixel accessor returning the
channel tuple of `img.getpixel((x, y))` as a list of 8-bit channel values. -/
structure Image where
  width : Nat
  height : Nat
  pixel : Int → Int → List Nat

namespace Flooding

/-- `box_size = 50` from the source: half-extent of the sample window. -/
def box_size : Nat := 50

/-- Python's `range(a, b)` over integers, as the list `a, a+1, ..., b-1`. -/
def intRange (a b : Int) : List Int :=
  (List.range (b - a).toNat).map (fun i : Nat => a + (i : Int))

/-- The bounds test `0 <= x < width and 0 <= y < height` from the loop body. -/
def inBounds (img : Image) (p : Int × Int) : Bool :=
  decide (0 ≤ p.1) && decide (p.1 < (img.width : Int)) &&
    decide (0 ≤ p.2) && decide (p.2 < (img.height : Int))

/-- The nested loops `for x in range(center_x - 50, center_x + 50): for y in
range(center_y - 50, center_y + 50)`: all visited coordinates, x-major. -/
def windowCoords (img : Image) : List (Int × Int) :=
  (intRange (((img.width / 2 : Nat) : Int) - box_size) (((img.width / 2 : Nat) : Int) + box_size)).flatMap
    (fun x => (intRange (((img.height / 2 : Nat) : Int) - box_size) (((img.height / 2 : Nat) : Int) + box_size)).map
      (fun y => (x, y)))

/-- Line 40: `b > 100 and b > r * 1.3 and b > g * 1.1`.  The comparisons
against the products `r * 1.3` and `g * 1.1` are embedded as the exact
integer comparisons `13 * r < 10 * b` and `11 * g < 10 * b`, which agree
with the double-precision comparisons for all channel values in 0..255
(the equivalence with the rational form of the predicate is proved in the
theorem for C1 below). -/
def isBlue (r g b : Nat) : Bool :=
  decide (100 < b) && decide (13 * r < 10 * b) && decide (11 * g < 10 * b)

/-- The channel tuples actually accumulated by the loop: in-bounds window
coordinates only, and only pixels exposing at least 3 channels. -/
def sampledPixels (img : Image) : List (List Nat) :=
  (((windowCoords img).filter (inBounds img)).map (fun p => img.pixel p.1 p.2)).filter
    (fun px => decide (3 ≤ px.length))

/-- Running sum of channel `i` over the sampled pixels (`avg_r` etc. before
the division). -/
def channelSum (px : List (List Nat)) (i : Nat) : Nat :=
  (px.map (fun p => p.getD i 0)).sum

/-- Python's `round` to an integer: round half to even (exact on the
rationals produced here, since every tied quotient is dyadic). -/
def pyRound (q : ℚ) : Int :=
  if q - ⌊q⌋ < 1/2 then ⌊q⌋
  else if 1/2 < q - ⌊q⌋ then ⌊q⌋ + 1
  else if ⌊q⌋ % 2 = 0 then ⌊q⌋ else ⌊q⌋ + 1

/-- Python's `round(x, 4)`: round to a multiple of 1/10000, half to even
(see the tie-point caveat in the header). -/
def round4 (q : ℚ) : ℚ :=
  (pyRound (q * 10000) : ℚ) / 10000

/-- The success record returned by `analyze_image` (lines 51-57). -/
structure ColorStats where
  blue_pixels : Nat
  total_pixels : Nat
  blue_ratio : ℚ
  avg_color : Int × Int × Int
  has_flooding : Bool
deriving DecidableEq, Repr

/-- Line 32 followed by line 40: extract `r, g, b = pixel[0], pixel[1],
pixel[2]` from a channel tuple (known to have at least 3 entries wherever
this is applied) and test the flood-colour predicate. -/
def bluePred (p : List Nat) : Bool :=
  isBlue (p.getD 0 0) (p.getD 1 0) (p.getD 2 0)

/-- Lines 23-57 of the source, as a function of the sampled channel tuples:
count blue pixels, average the channels, round, and threshold the ratio. -/
def statsOfPixels (px : List (List Nat)) : ColorStats :=
  let total_pixels := px.length
  let blue_pixels := px.countP bluePred
  let ratio : ℚ := if 0 < total_pixels then (blue_pixels : ℚ) / (total_pixels : ℚ) else 0
  let avg_r : ℚ := if 0 < total_pixels then (channelSum px 0 : ℚ) / (total_pixels : ℚ) else 0
  let avg_g : ℚ := if 0 < total_pixels then (channelSum px 1 : ℚ) / (total_pixels : ℚ) else 0
  let avg_b : ℚ := if 0 < total_pixels then (channelSum px 2 : ℚ) / (total_pixels : ℚ) else 0
  { blue_pixels := blue_pixels
    total_pixels := total_pixels
    blue_ratio := round4 ratio
    avg_color := (pyRound avg_r, pyRound avg_g, pyRound avg_b)
    has_flooding := decide (ratio > 1/10) }

/-- The whole per-image analysis on a successfully decoded image. -/
def colorStats (img : Image) : ColorStats :=
  statsOfPixels (sampledPixels img)

/-- The value returned by `analyze_image`: a stats record, or the dict
`{"error": str(e)}` built by the `except` clause. -/
inductive AnalysisRecord where
  | ok (stats : ColorStats)
  | error (msg : String)
deriving DecidableEq, Repr

/-- `analyze_image` (lines 12-59).  Decoding (`Image.open`) happens outside
the model; its outcome is the `Except` argument, and the `try/except`
boundary turns a decode failure into an error record carrying `str(e)`. -/
def analyze_image (input : Except String Image) : AnalysisRecord :=
  match input with
  | .error e => .error e
  | .ok img => .ok (colorStats img)

/-- A constant-colour image, for concrete test inputs. -/
def uniformImage (w h : Nat) (px : List Nat) : Image :=
  ⟨w, h, fun _ _ => px⟩

/-- Python's `str.replace`: replace every non-overlapping occurrence of
`pat`, scanning left to right (fuelled by the length of the remaining
text; a step always consumes at least one character when `pat` is
nonempty, as it is at every call site). -/
def pyReplaceAux : Nat → List Char → List Char → List Char → List Char
  | 0, s, _, _ => s
  | _ + 1, [], _, _ => []
  | fuel + 1, c :: rest, pat, rep =>
    if !pat.isEmpty && pat.isPrefixOf (c :: rest) then
      rep ++ pyReplaceAux fuel ((c :: rest).drop pat.length) pat rep
    else
      c :: pyReplaceAux fuel rest pat rep

/-- Python's `s.replace(pat, rep)` on strings. -/
def pyReplace (s pat rep : String) : String :=
  ⟨pyReplaceAux s.toList.length s.toList pat.toList rep.toList⟩

/-- Python's `s.rsplit(sep, 1)`: split off the part after the last
occurrence of `sep`; a single-element list when `sep` does not occur. -/
def pyRSplit1 (s : String) (sep : Char) : List String :=
  let r := s.toList.reverse
  let post := r.takeWhile (fun c => c != sep)
  if post.length = r.length then [s]
  else [⟨(r.drop (post.length + 1)).reverse⟩, ⟨post.reverse⟩]

/-- Python's `s.startswith(pre)`. -/
def pyStartsWith (s pre : String) : Bool :=
  pre.toList.isPrefixOf s.toList

/-- Decimal digit string to a number; `none` when empty or when any
character is not a digit (where Python's `int` would raise `ValueError`). -/
def digitsToNat? (cs : List Char) : Option Nat :=
  if cs.isEmpty then none
  else
    cs.foldl
      (fun acc c =>
        match acc with
        | none => none
        | some n => if c.isDigit then some (n * 10 + (c.toNat - 48)) else none)
      (some 0)

/-- Python's `int(s)` on an optionally signed decimal string; `none`
models the `ValueError` raised on malformed input. -/
def pyInt? (s : String) : Option Int :=
  match s.toList with
  | '-' :: rest => (digitsToNat? rest).map (fun n => -(n : Int))
  | '+' :: rest => (digitsToNat? rest).map (fun n => (n : Int))
  | cs => (digitsToNat? cs).map (fun n => (n : Int))

/-- Mode A filename parsing (lines 79-81): strip `"zoom_"` and `".png"`,
split on the last underscore into the test name and the level token, strip
`"ft"` and `"+"` from the token and parse the integer.  `none` models the
uncaught `IndexError`/`ValueError` on a malformed name. -/
def parseZoomFilename (filename : String) : Option (String × Int) :=
  let stripped := pyReplace (pyReplace filename "zoom_" "") ".png" ""
  match pyRSplit1 stripped '_' with
  | [test_name, levelTok] =>
    (pyInt? (pyReplace (pyReplace levelTok "ft" "") "+" "")).map
      (fun n => (test_name, n))
  | _ => none

/-- Mode B filename parsing (lines 120-123): strip `"elevation_"` and
`"ft.png"`, record a leading `-`, strip all leading sign characters and
leading zeros (defaulting to `"0"` when nothing remains), parse the
digits, and negate when the sign was negative. -/
def parseElevationFilename (filename : String) : Option Int :=
  let elevStr := pyReplace (pyReplace filename "elevation_" "") "ft.png" ""
  let isNeg := pyStartsWith elevStr "-"
  let strippedSigns := elevStr.toList.dropWhile (fun c => c == '+' || c == '-')
  let strippedZeros := strippedSigns.dropWhile (fun c => c == '0')
  let elevNum := if strippedZeros.isEmpty then ['0'] else strippedZeros
  (digitsToNat? elevNum).map (fun n => if isNeg then -(n : Int) else (n : Int))

/-- One entry of the mode A results list (lines 83-87). -/
structure ZoomRow where
  test_name : String
  water_level_ft : Int
  analysis : AnalysisRecord
deriving DecidableEq, Repr

/-- The value returned by `main`: mode A returns the list of rows, mode B
returns the elevation-keyed results (modelled as the association list in
file order; no claim involves duplicate elevations, where the source dict
would keep only the later entry). -/
inductive BatchResult where
  | zoomRows (rows : List ZoomRow)
  | elevationMap (entries : List (Int × AnalysisRecord))
deriving DecidableEq, Repr

/-- Observable outcome of one `main` run: the returned value, the name of
the summary file written (if any), and the "no screenshots" notice (if
printed). -/
structure BatchOutcome where
  result : BatchResult
  written : Option String
  notice : Option String
deriving DecidableEq, Repr

/-- Python's string comparison: lexicographic on code points, with a
proper prefix ordered first. -/
def charListLe : List Char → List Char → Bool
  | [], _ => true
  | _ :: _, [] => false
  | a :: as, b :: bs => if a < b then true else if b < a then false else charListLe as bs

/-- `s <= t` on strings, as Python compares filenames. -/
def pyStrLe (s t : String) : Bool :=
  charListLe s.toList t.toList

/-- Stable insertion into a sorted list, by Python's lexicographic string
order. -/
def insertSorted (a : String) : List String → List String
  | [] => [a]
  | b :: l => if pyStrLe a b then a :: b :: l else b :: insertSorted a l

/-- Python's `sorted` on filenames (insertion sort: stable, ascending). -/
def pySorted (l : List String) : List String :=
  l.foldr insertSorted []

/-- `main` (lines 62-141).  The directory listing and the decoder are the
external inputs; `none` models an uncaught exception from filename
parsing.  Mode A is chosen whenever any `"zoom_"` file is present; else
mode B on `"elevation_"` files; else the empty result with the
"no screenshots" notice and no file written. -/
def runBatch (listing : List String) (decode : String → Except String Image) :
    Option BatchOutcome :=
  let zoom_files := pySorted (listing.filter (fun f => pyStartsWith f "zoom_"))
  if !zoom_files.isEmpty then
    (zoom_files.mapM (fun filename =>
        (parseZoomFilename filename).map (fun pr =>
          { test_name := pr.1, water_level_ft := pr.2,
            analysis := analyze_image (decode filename) : ZoomRow }))).map
      (fun rows =>
        { result := .zoomRows rows, written := some "zoom_analysis.json",
          notice := none })
  else
    let files := pySorted (listing.filter (fun f => pyStartsWith f "elevation_"))
    if files.isEmpty then
      some { result := .elevationMap [], written := none,
             notice := some "No screenshots found!" }
    else
      (files.mapM (fun filename =>
          (parseElevationFilename filename).map
            (fun elev => (elev, analyze_image (decode filename))))).map
        (fun entries =>
          { result := .elevationMap entries,
            written := some "analysis_results.json", notice := none })

/-- The sample-window coordinates intersected with the image bounds, as a
set (the spec's description of what `total_pixels` counts, for C4). -/
def windowFinset (img : Image) : Finset (Int × Int) :=
  ((Finset.Ico (((img.width / 2 : Nat) : Int) - box_size)
        (((img.width / 2 : Nat) : Int) + box_size)) ×ˢ
      (Finset.Ico (((img.height / 2 : Nat) : Int) - box_size)
        (((img.height / 2 : Nat) : Int) + box_size))).filter
    (fun p => 0 ≤ p.1 ∧ p.1 < (img.width : Int) ∧ 0 ≤ p.2 ∧ p.2 < (img.height : Int))

/-- Replace the channel tuple at one coordinate (for stating that skipped
pixels do not influence the result). -/
def setPixel (img : Image) (x0 y0 : Int) (px : List Nat) : Image :=
  ⟨img.width, img.height, fun x y => if x = x0 ∧ y = y0 then px else img.pixel x y⟩

/-- A 1x1 saturated-blue image. -/
def blueImage1 : Image := uniformImage 1 1 [0, 0, 255]

/-- A 41x49 image (fully inside the sample window) with 201 blue pixels
among its 2009: the unrounded blue ratio 201/2009 exceeds 1/10 while its
4-decimal rounding is exactly 1/10. -/
def nearTenthImage : Image :=
  ⟨41, 49, fun x y =>
    if x < 4 ∨ (x = 4 ∧ y < 5) then [0, 0, 255] else [255, 255, 255]⟩

/-- A 3x1 image with exactly one blue pixel: the blue ratio is 1/3, whose
4-decimal rounding 0.3333 differs from the exact ratio. -/
def oneThirdImage : Image :=
  ⟨3, 1, fun x _ => if x = 0 then [0, 0, 255] else [255, 255, 255]⟩

/-- A 2x2 image whose pixel at the origin exposes a single channel. -/
def shortPixelImage : Image :=
  ⟨2, 2, fun x y => if x = 0 ∧ y = 0 then [7] else [1, 2, 200]⟩

/-- A 10x10 image: smaller than the 100x100 sample window. -/
def smallImage : Image := uniformImage 10 10 [1, 2, 3]

/-- A 1x1 image with distinct channel values, for the average-colour case. -/
def avgImage : Image := uniformImage 1 1 [10, 20, 30]

/-- A directory with three mode A screenshots, the middle one corrupt. -/
def errorListing : List String :=
  ["zoom_A_+0001ft.png", "zoom_B_+0002ft.png", "zoom_C_+0003ft.png"]

/-- Decoder for `errorListing`: the middle file fails to decode. -/
def errorDecode : String → Except String Image := fun f =>
  if f = "zoom_B_+0002ft.png" then Except.error "cannot identify image file"
  else Except.ok blueImage1

/-- A directory holding both a mode B file and a mode A file. -/
def mixedListing : List String :=
  ["elevation_+00000ft.png", "zoom_A_+0000ft.png"]

/-- A directory with no screenshot files at all. -/
def unrelatedListing : List String :=
  ["analysis_results.json", "readme.txt"]

/-- A decoder that always succeeds, for the mode-selection runs. -/
def constDecode : String → Except String Image := fun _ => Except.ok blueImage1

theorem colorStats_def (img : Image) :
    colorStats img = statsOfPixels (sampledPixels img) := rfl

theorem statsOfPixels_total (px : List (List Nat)) :
    (statsOfPixels px).total_pixels = px.length := rfl

theorem statsOfPixels_blue (px : List (List Nat)) :
    (statsOfPixels px).blue_pixels = px.countP bluePred := rfl

theorem statsOfPixels_ratio (px : List (List Nat)) :
    (statsOfPixels px).blue_ratio =
      round4 (if 0 < px.length then (px.countP bluePred : ℚ) / (px.length : ℚ) else 0) := rfl

theorem statsOfPixels_flooding (px : List (List Nat)) :
    (statsOfPixels px).has_flooding =
      decide ((if 0 < px.length then (px.countP bluePred : ℚ) / (px.length : ℚ) else 0) > 1/10) := rfl

theorem statsOfPixels_avg (px : List (List Nat)) :
    (statsOfPixels px).avg_color =
      (pyRound (if 0 < px.length then (channelSum px 0 : ℚ) / (px.length : ℚ) else 0),
       pyRound (if 0 < px.length then (channelSum px 1 : ℚ) / (px.length : ℚ) else 0),
       pyRound (if 0 < px.length then (channelSum px 2 : ℚ) / (px.length : ℚ) else 0)) := rfl

theorem mem_intRange {a b y : Int} : y ∈ intRange a b ↔ a ≤ y ∧ y < b := by
  rw [intRange, List.mem_map]
  constructor
  · rintro ⟨i, hi, rfl⟩
    rw [List.mem_range] at hi
    omega
  · intro hy
    refine ⟨(y - a).toNat, ?_, ?_⟩
    · rw [List.mem_range]
      omega
    · omega

theorem nodup_intRange (a b : Int) : (intRange a b).Nodup := by
  rw [intRange]
  apply List.Nodup.map
  · intro i j hij
    dsimp only at hij
    omega
  · exact List.nodup_range _

theorem nodup_pairs (xs ys : List Int) (hx : xs.Nodup) (hy : ys.Nodup) :
    (xs.flatMap (fun x => ys.map (fun y => (x, y)))).Nodup := by
  induction xs with
  | nil => simp
  | cons a l ih =>
    rw [List.nodup_cons] at hx
    rw [List.flatMap_cons]
    refine (hy.map ?_).append (ih hx.2) ?_
    · intro y1 y2 h12
      injection h12
    · rintro p hp1 hp2
      rw [List.mem_map] at hp1
      obtain ⟨y, hy1, rfl⟩ := hp1
      rw [List.mem_flatMap] at hp2
      obtain ⟨x, hx1, hp2⟩ := hp2
      rw [List.mem_map] at hp2
      obtain ⟨y2, hy2, heq⟩ := hp2
      injection heq with e1 e2
      exact hx.1 (e1 ▸ hx1)

theorem nodup_windowCoords (img : Image) : (windowCoords img).Nodup := by
  rw [windowCoords]
  exact nodup_pairs _ _ (nodup_intRange _ _) (nodup_intRange _ _)

theorem mem_windowCoords {img : Image} {p : Int × Int} :
    p ∈ windowCoords img ↔
      ((((img.width / 2 : Nat) : Int) - box_size ≤ p.1 ∧
          p.1 < ((img.width / 2 : Nat) : Int) + box_size) ∧
        (((img.height / 2 : Nat) : Int) - box_size ≤ p.2 ∧
          p.2 < ((img.height / 2 : Nat) : Int) + box_size)) := by
  obtain ⟨a, b⟩ := p
  simp only [windowCoords, List.mem_flatMap, List.mem_map, mem_intRange, Prod.mk.injEq]
  constructor
  · rintro ⟨x, hx, y, hy, rfl, rfl⟩
    exact ⟨hx, hy⟩
  · rintro ⟨hx, hy⟩
    exact ⟨a, hx, b, hy, rfl, rfl⟩

theorem inBounds_iff {img : Image} {p : Int × Int} :
    inBounds img p = true ↔
      (0 ≤ p.1 ∧ p.1 < (img.width : Int) ∧ 0 ≤ p.2 ∧ p.2 < (img.height : Int)) := by
  simp [inBounds, and_assoc]

theorem toFinset_filter_inBounds (img : Image) :
    ((windowCoords img).filter (inBounds img)).toFinset = windowFinset img := by
  ext p
  rw [List.mem_toFinset, List.mem_filter, mem_windowCoords, inBounds_iff, windowFinset,
    Finset.mem_filter, Finset.mem_product, Finset.mem_Ico, Finset.mem_Ico]

theorem length_filter_inBounds (img : Image) :
    ((windowCoords img).filter (inBounds img)).length = (windowFinset img).card := by
  rw [← toFinset_filter_inBounds img,
    List.toFinset_card_of_nodup ((nodup_windowCoords img).filter _)]

theorem countP_filter_inBounds (img : Image) (q : Int × Int → Bool) :
    ((windowCoords img).filter (inBounds img)).countP q =
      ((windowFinset img).filter (fun p => q p = true)).card := by
  rw [List.countP_eq_length_filter]
  rw [← List.toFinset_card_of_nodup (((nodup_windowCoords img).filter _).filter _)]
  rw [List.toFinset_filter, toFinset_filter_inBounds]

theorem sampledPixels_of_full (img : Image)
    (h : ∀ x y : Int, 3 ≤ (img.pixel x y).length) :
    sampledPixels img =
      ((windowCoords img).filter (inBounds img)).map (fun p => img.pixel p.1 p.2) := by
  rw [sampledPixels]
  apply List.filter_eq_self.mpr
  rintro px hpx
  rw [List.mem_map] at hpx
  obtain ⟨p, _, rfl⟩ := hpx
  simpa using h p.1 p.2

theorem total_pixels_eq_card (img : Image)
    (h : ∀ x y : Int, 3 ≤ (img.pixel x y).length) :
    (colorStats img).total_pixels = (windowFinset img).card := by
  rw [colorStats_def, statsOfPixels_total, sampledPixels_of_full img h, List.length_map,
    length_filter_inBounds]

theorem blue_pixels_eq_card (img : Image)
    (h : ∀ x y : Int, 3 ≤ (img.pixel x y).length) :
    (colorStats img).blue_pixels =
      ((windowFinset img).filter (fun p => bluePred (img.pixel p.1 p.2) = true)).card := by
  rw [colorStats_def, statsOfPixels_blue, sampledPixels_of_full img h, List.countP_map,
    countP_filter_inBounds]
  rfl

theorem nearTenth_channels (x y : Int) : 3 ≤ (nearTenthImage.pixel x y).length := by
  show 3 ≤ (if x < 4 ∨ (x = 4 ∧ y < 5) then [0, 0, 255] else [255, 255, 255]).length
  split_ifs <;> decide

theorem nearTenth_window :
    windowFinset nearTenthImage = Finset.Ico (0 : ℤ) 41 ×ˢ Finset.Ico (0 : ℤ) 49 := by
  ext p
  obtain ⟨a, b⟩ := p
  rw [windowFinset, Finset.mem_filter, Finset.mem_product, Finset.mem_Ico, Finset.mem_Ico,
    Finset.mem_product, Finset.mem_Ico, Finset.mem_Ico]
  have e1 : nearTenthImage.width = 41 := rfl
  have e2 : nearTenthImage.height = 49 := rfl
  have e3 : (box_size : Int) = 50 := rfl
  rw [e1, e2, e3]
  constructor
  · rintro ⟨⟨h1, h2⟩, h3⟩
    omega
  · rintro ⟨h1, h2⟩
    omega

theorem nearTenth_total : (colorStats nearTenthImage).total_pixels = 2009 := by
  rw [total_pixels_eq_card _ nearTenth_channels, nearTenth_window, Finset.card_product,
    Int.card_Ico, Int.card_Ico]
  decide

theorem nearTenth_blue : (colorStats nearTenthImage).blue_pixels = 201 := by
  rw [blue_pixels_eq_card _ nearTenth_channels]
  have hset : (windowFinset nearTenthImage).filter
        (fun p => bluePred (nearTenthImage.pixel p.1 p.2) = true) =
      (Finset.Ico (0 : ℤ) 4 ×ˢ Finset.Ico (0 : ℤ) 49) ∪
        ({(4 : ℤ)} ×ˢ Finset.Ico (0 : ℤ) 5) := by
    rw [nearTenth_window]
    ext p
    obtain ⟨a, b⟩ := p
    rw [Finset.mem_filter, Finset.mem_product, Finset.mem_Ico, Finset.mem_Ico,
      Finset.mem_union, Finset.mem_product, Finset.mem_Ico, Finset.mem_Ico,
      Finset.mem_product, Finset.mem_singleton, Finset.mem_Ico]
    have hpix : bluePred (nearTenthImage.pixel a b) = true ↔ (a < 4 ∨ (a = 4 ∧ b < 5)) := by
      show bluePred (if a < 4 ∨ (a = 4 ∧ b < 5) then [0, 0, 255] else [255, 255, 255]) = true ↔ _
      split_ifs with hc
      · have hb : bluePred [0, 0, 255] = true := by decide
        simp [hb, hc]
      · have hb : bluePred [255, 255, 255] = false := by decide
        simp [hb, hc]
    rw [hpix]
    omega
  rw [hset, Finset.card_union_of_disjoint, Finset.card_product, Finset.card_product,
    Int.card_Ico, Int.card_Ico, Int.card_Ico, Finset.card_singleton]
  · decide
  · rw [Finset.disjoint_left]
    rintro ⟨a, b⟩ h1 h2
    rw [Finset.mem_product, Finset.mem_Ico] at h1
    rw [Finset.mem_product, Finset.mem_singleton] at h2
    omega

theorem pyRound_eq_of_lt_half (q : ℚ) (n : ℤ) (h1 : (n : ℚ) ≤ q)
    (h2 : q < (n : ℚ) + 1/2) : pyRound q = n := by
  have hf : ⌊q⌋ = n := Int.floor_eq_iff.mpr ⟨h1, by linarith⟩
  rw [pyRound, hf, if_pos (by linarith)]

theorem pyRound_eq_of_half_lt (q : ℚ) (n : ℤ) (h1 : (n : ℚ) + 1/2 < q)
    (h2 : q < (n : ℚ) + 1) : pyRound q = n + 1 := by
  have hf : ⌊q⌋ = n := Int.floor_eq_iff.mpr ⟨by linarith, h2⟩
  rw [pyRound, hf, if_neg (by linarith), if_pos (by linarith)]

theorem pyRound_floor_or (q : ℚ) : pyRound q = ⌊q⌋ ∨ pyRound q = ⌊q⌋ + 1 := by
  rw [pyRound]
  split_ifs <;> simp

theorem pyRound_nonneg (q : ℚ) (h : 0 ≤ q) : 0 ≤ pyRound q := by
  have hf : 0 ≤ ⌊q⌋ := Int.floor_nonneg.mpr h
  rcases pyRound_floor_or q with he | he <;> omega

theorem pyRound_le (q : ℚ) (n : ℤ) (h : q ≤ (n : ℚ)) : pyRound q ≤ n := by
  have hfl := Int.floor_le q
  have hfn : ⌊q⌋ ≤ n := by
    have := Int.floor_le_floor h
    simpa using this
  rw [pyRound]
  split_ifs with h1 h2 h3
  · exact hfn
  · have : (⌊q⌋ : ℚ) < (n : ℚ) := by linarith
    have : ⌊q⌋ < n := by exact_mod_cast this
    omega
  · exact hfn
  · have heq : q - ⌊q⌋ = 1/2 := le_antisymm (not_lt.mp h2) (not_lt.mp h1)
    have : (⌊q⌋ : ℚ) < (n : ℚ) := by linarith
    have : ⌊q⌋ < n := by exact_mod_cast this
    omega

theorem pyRound_nearest (q : ℚ) : |(pyRound q : ℚ) - q| ≤ 1/2 := by
  have hfl := Int.floor_le q
  have hfu := Int.lt_floor_add_one q
  rw [pyRound]
  split_ifs with h1 h2 h3 <;> rw [abs_le] <;> constructor <;> push_cast <;> linarith

theorem round4_nonneg (q : ℚ) (h : 0 ≤ q) : 0 ≤ round4 q := by
  rw [round4]
  have : 0 ≤ pyRound (q * 10000) := pyRound_nonneg _ (by positivity)
  positivity

theorem round4_le_one (q : ℚ) (h : q ≤ 1) : round4 q ≤ 1 := by
  rw [round4]
  have h1 : pyRound (q * 10000) ≤ 10000 := pyRound_le _ 10000 (by push_cast; linarith)
  rw [div_le_one (by norm_num)]
  exact_mod_cast h1

/-- C1: a sampled pixel is counted toward `blue_pixels` exactly when
`b > 100` and `b > r * 1.3` and `b > g * 1.1`, all strict, on the raw
channel values; `(0, 0, 100)` is not counted and `(0, 0, 101)` is. -/
theorem c1_flood_predicate (r g b : Nat) :
    (isBlue r g b = true ↔
      ((100 : ℚ) < (b : ℚ) ∧ (r : ℚ) * 1.3 < (b : ℚ) ∧ (g : ℚ) * 1.1 < (b : ℚ)))
    ∧ (∀ px : List (List Nat), (statsOfPixels px).blue_pixels = px.countP bluePred)
    ∧ isBlue 0 0 100 = false ∧ isBlue 0 0 101 = true := by
  refine ⟨?_, fun px => rfl, by decide, by decide⟩
  rw [isBlue]
  simp only [Bool.and_eq_true, decide_eq_true_eq]
  constructor
  · rintro ⟨⟨hb, hr⟩, hg⟩
    have hr' : (13 * r : ℚ) < 10 * b := by exact_mod_cast hr
    have hg' : (11 * g : ℚ) < 10 * b := by exact_mod_cast hg
    refine ⟨by exact_mod_cast hb, ?_, ?_⟩
    · rw [show (1.3 : ℚ) = 13/10 by norm_num]; linarith
    · rw [show (1.1 : ℚ) = 11/10 by norm_num]; linarith
  · rintro ⟨hb, hr, hg⟩
    rw [show (1.3 : ℚ) = 13/10 by norm_num] at hr
    rw [show (1.1 : ℚ) = 11/10 by norm_num] at hg
    have hr' : (13 * r : ℚ) < 10 * b := by linarith
    have hg' : (11 * g : ℚ) < 10 * b := by linarith
    exact ⟨⟨by exact_mod_cast hb, by exact_mod_cast hr'⟩, by exact_mod_cast hg'⟩

/-- C6: the four example filenames parse exactly as the spec states, in
the respective modes. -/
theorem c6_filename_examples :
    parseZoomFilename "zoom_Global_Full_+0000ft.png" = some ("Global_Full", 0) ∧
    parseZoomFilename "zoom_Local_Coast_-00100ft.png" = some ("Local_Coast", -100) ∧
    parseElevationFilename "elevation_-00050ft.png" = some (-50) ∧
    parseElevationFilename "elevation_+00000ft.png" = some 0 := by decide

/-- C10: `has_flooding` is the exact comparison `blue_pixels / total_pixels
> 1/10` on the unrounded ratio (independent of the rounded `blue_ratio`
field reported alongside it). -/
theorem c10_flooding_exact_threshold (img : Image)
    (h : 0 < (colorStats img).total_pixels) :
    (colorStats img).has_flooding =
      decide (((colorStats img).blue_pixels : ℚ) /
        ((colorStats img).total_pixels : ℚ) > 1/10) := by
  have h' : 0 < (sampledPixels img).length := h
  rw [colorStats_def, statsOfPixels_flooding, statsOfPixels_blue,
    statsOfPixels_total, if_pos h']

set_option maxRecDepth 200000 in
/-- Witness for C10 at a 1x1 saturated-blue image. -/
theorem c10_flooding_witness :
    0 < (colorStats blueImage1).total_pixels ∧
    (colorStats blueImage1).has_flooding =
      decide (((colorStats blueImage1).blue_pixels : ℚ) /
        ((colorStats blueImage1).total_pixels : ℚ) > 1/10) :=
  ⟨by decide, c10_flooding_exact_threshold blueImage1 (by decide)⟩

/-- C2 (amended): `has_flooding` holds iff the UNROUNDED ratio
`blue_pixels / total_pixels` exceeds 1/10; a ratio of exactly 1/10 is not
flooded.  (The claim's reading — that the threshold applies to the
4-decimal-rounded `blue_ratio` of the output record — is refuted by the
counterexample below.) -/
theorem c2_flooding_on_unrounded (img : Image)
    (h : 0 < (colorStats img).total_pixels) :
    ((colorStats img).has_flooding = true ↔
      ((colorStats img).blue_pixels : ℚ) / ((colorStats img).total_pixels : ℚ) > 1/10)
    ∧ (((colorStats img).blue_pixels : ℚ) / ((colorStats img).total_pixels : ℚ) = 1/10 →
        (colorStats img).has_flooding = false) := by
  have h' : 0 < (sampledPixels img).length := h
  rw [colorStats_def, statsOfPixels_flooding, statsOfPixels_blue,
    statsOfPixels_total, if_pos h']
  constructor
  · simp
  · intro he
    rw [he]
    simp

/-- C2 counterexample: an image with 201 blue pixels among 2009 sampled
ones is classified as flooded (201/2009 > 1/10), yet the rounded
`blue_ratio` field of its record is exactly 1/10, which is not `> 1/10`:
the claimed equivalence against the rounded field fails. -/
theorem c2_counterexample :
    (colorStats nearTenthImage).has_flooding = true ∧
    ¬((colorStats nearTenthImage).blue_ratio > (1/10 : ℚ)) := by
  have hT := nearTenth_total
  have hB := nearTenth_blue
  rw [colorStats_def, statsOfPixels_total] at hT
  rw [colorStats_def, statsOfPixels_blue] at hB
  constructor
  · rw [colorStats_def, statsOfPixels_flooding, hT, hB,
      decide_eq_true_eq, if_pos (by norm_num : (0:ℕ) < 2009)]
    push_cast
    rw [gt_iff_lt, lt_div_iff₀ (by norm_num)]
    norm_num
  · rw [colorStats_def, statsOfPixels_ratio, hT, hB,
      if_pos (by norm_num : (0:ℕ) < 2009)]
    have hp : pyRound (((201:ℕ) : ℚ) / ((2009:ℕ) : ℚ) * 10000) = 1000 := by
      apply pyRound_eq_of_lt_half
      · push_cast
        rw [div_mul_eq_mul_div, le_div_iff₀ (by norm_num)]
        norm_num
      · push_cast
        rw [div_mul_eq_mul_div, div_lt_iff₀ (by norm_num)]
        norm_num
    rw [round4, hp]
    norm_num

set_option maxRecDepth 200000 in
/-- Witness for the amended C2 at a 1x1 saturated-blue image. -/
theorem c2_flooding_witness :
    0 < (colorStats blueImage1).total_pixels ∧
    (colorStats blueImage1).has_flooding = true := by
  have ht : (colorStats blueImage1).total_pixels = 1 := by decide
  have hb : (colorStats blueImage1).blue_pixels = 1 := by decide
  refine ⟨by omega, ?_⟩
  apply (c2_flooding_on_unrounded blueImage1 (by omega)).1.mpr
  rw [hb, ht]
  norm_num

set_option maxRecDepth 200000 in
/-- C3: `analyze_image` never raises past its boundary: a decode failure
becomes an error record carrying the failure text, and a batch over a
directory with one corrupt file among valid ones yields an error row for
that file, non-error rows for the others, completes, and writes the
summary file. -/
theorem c3_error_isolation :
    (∀ msg : String, analyze_image (Except.error msg) = AnalysisRecord.error msg) ∧
    runBatch errorListing errorDecode =
      some { result := BatchResult.zoomRows
               [{ test_name := "A", water_level_ft := 1,
                  analysis := AnalysisRecord.ok (colorStats blueImage1) },
                { test_name := "B", water_level_ft := 2,
                  analysis := AnalysisRecord.error "cannot identify image file" },
                { test_name := "C", water_level_ft := 3,
                  analysis := AnalysisRecord.ok (colorStats blueImage1) }],
             written := some "zoom_analysis.json", notice := none } :=
  ⟨fun _ => rfl, rfl⟩

/-- C4: `total_pixels` is the number of integer coordinates of the
100x100 centred window intersected with the image bounds (when every
pixel exposes at least 3 channels), and the classification succeeds. -/
theorem c4_window_clipping (img : Image)
    (h : ∀ x y : Int, 3 ≤ (img.pixel x y).length) :
    (colorStats img).total_pixels = (windowFinset img).card ∧
    analyze_image (Except.ok img) = AnalysisRecord.ok (colorStats img) :=
  ⟨total_pixels_eq_card img h, rfl⟩

set_option maxRecDepth 200000 in
/-- Witness for C4 at a 10x10 image: the clipped in-bounds area is 100,
not 10000. -/
theorem c4_window_witness :
    (∀ x y : Int, 3 ≤ (smallImage.pixel x y).length) ∧
    (colorStats smallImage).total_pixels = (windowFinset smallImage).card ∧
    (windowFinset smallImage).card = 100 ∧
    analyze_image (Except.ok smallImage) = AnalysisRecord.ok (colorStats smallImage) := by
  have hch : ∀ x y : Int, 3 ≤ (smallImage.pixel x y).length := fun _ _ => le_refl 3
  have hW : windowFinset smallImage = Finset.Ico (0 : ℤ) 10 ×ˢ Finset.Ico (0 : ℤ) 10 := by
    ext p
    obtain ⟨a, b⟩ := p
    rw [windowFinset, Finset.mem_filter, Finset.mem_product, Finset.mem_Ico, Finset.mem_Ico,
      Finset.mem_product, Finset.mem_Ico, Finset.mem_Ico]
    have e1 : smallImage.width = 10 := rfl
    have e2 : smallImage.height = 10 := rfl
    have e3 : (box_size : Int) = 50 := rfl
    rw [e1, e2, e3]
    constructor
    · rintro ⟨⟨h1, h2⟩, h3⟩
      omega
    · rintro ⟨h1, h2⟩
      omega
  refine ⟨hch, (c4_window_clipping smallImage hch).1, ?_,
    (c4_window_clipping smallImage hch).2⟩
  rw [hW, Finset.card_product, Int.card_Ico]
  decide

set_option maxRecDepth 200000 in
/-- C5 counterexample: on a 3x1 image with one blue pixel the record's
`blue_ratio` field is 0.3333, not the exact quotient 1/3: the claimed
equality `blue_ratio = blue_pixels / total_pixels` fails for the record. -/
theorem c5_invariants_counterexample :
    0 < (colorStats oneThirdImage).total_pixels ∧
    (colorStats oneThirdImage).blue_ratio ≠
      ((colorStats oneThirdImage).blue_pixels : ℚ) /
        ((colorStats oneThirdImage).total_pixels : ℚ) := by
  have hT : (sampledPixels oneThirdImage).length = 3 := by decide
  have hB : (sampledPixels oneThirdImage).countP bluePred = 1 := by decide
  constructor
  · show 0 < (sampledPixels oneThirdImage).length
    omega
  · rw [colorStats_def, statsOfPixels_ratio, statsOfPixels_blue, statsOfPixels_total, hT, hB,
      if_pos (by norm_num : (0:ℕ) < 3)]
    have hp : pyRound (((1:ℕ) : ℚ) / ((3:ℕ) : ℚ) * 10000) = 3333 := by
      apply pyRound_eq_of_lt_half
      · push_cast
        rw [div_mul_eq_mul_div, le_div_iff₀ (by norm_num)]
        norm_num
      · push_cast
        rw [div_mul_eq_mul_div, div_lt_iff₀ (by norm_num)]
        norm_num
    rw [round4, hp]
    push_cast
    norm_num

/-- C5 (amended): `0 ≤ blue_pixels ≤ total_pixels` and `blue_ratio ∈
[0,1]` hold for every record, and the record's `blue_ratio` field is the
round-to-4-decimals of the quotient `blue_pixels / total_pixels` (0 when
`total_pixels = 0`) rather than the exact quotient itself. -/
theorem c5_invariants_amended (img : Image) :
    (colorStats img).blue_pixels ≤ (colorStats img).total_pixels ∧
    0 ≤ (colorStats img).blue_ratio ∧ (colorStats img).blue_ratio ≤ 1 ∧
    (colorStats img).blue_ratio =
      round4 (if 0 < (colorStats img).total_pixels then
        ((colorStats img).blue_pixels : ℚ) / ((colorStats img).total_pixels : ℚ) else 0) := by
  have hle : (sampledPixels img).countP bluePred ≤ (sampledPixels img).length :=
    List.countP_le_length _
  refine ⟨hle, ?_, ?_, rfl⟩
  · rw [colorStats_def, statsOfPixels_ratio]
    apply round4_nonneg
    split_ifs with h
    · positivity
    · exact le_refl 0
  · rw [colorStats_def, statsOfPixels_ratio]
    apply round4_le_one
    split_ifs with h
    · have hpos : (0 : ℚ) < ((sampledPixels img).length : ℚ) := by exact_mod_cast h
      rw [div_le_one hpos]
      exact_mod_cast hle
    · norm_num

theorem insertSorted_ne_nil (a : String) (l : List String) : insertSorted a l ≠ [] := by
  cases l with
  | nil => simp [insertSorted]
  | cons b t =>
    rw [insertSorted]
    split_ifs <;> simp

theorem pySorted_eq_nil {l : List String} : pySorted l = [] ↔ l = [] := by
  cases l with
  | nil => simp [pySorted]
  | cons a t =>
    rw [pySorted, List.foldr_cons]
    constructor
    · intro h
      exact absurd h (insertSorted_ne_nil _ _)
    · intro h
      simp at h

/-- C7: any `"zoom_"` file selects mode A regardless of `"elevation_"`
files; with no file matching either prefix the run reports
"no screenshots found", returns the empty result, and writes nothing. -/
theorem c7_mode_selection (listing : List String) (decode : String → Except String Image) :
    ((listing.any (fun f => pyStartsWith f "zoom_")) = true →
      ∀ o, runBatch listing decode = some o →
        (∃ rows, o.result = BatchResult.zoomRows rows) ∧
          o.written = some "zoom_analysis.json") ∧
    ((listing.all (fun f => !pyStartsWith f "zoom_" && !pyStartsWith f "elevation_")) = true →
      runBatch listing decode =
        some { result := BatchResult.elevationMap [], written := none,
               notice := some "No screenshots found!" }) := by
  constructor
  · intro hz o ho
    have hne : (pySorted (listing.filter (fun f => pyStartsWith f "zoom_"))).isEmpty = false := by
      rw [List.isEmpty_eq_false_iff_exists_mem]
      rw [List.any_eq_true] at hz
      obtain ⟨f, hf, hpf⟩ := hz
      have : f ∈ listing.filter (fun f => pyStartsWith f "zoom_") :=
        List.mem_filter.mpr ⟨hf, hpf⟩
      rcases hx : pySorted (listing.filter (fun f => pyStartsWith f "zoom_")) with _ | ⟨c, cs⟩
      · rw [pySorted_eq_nil] at hx
        rw [hx] at this
        cases this
      · exact ⟨c, List.mem_cons_self _ _⟩
    simp only [runBatch] at ho
    rw [hne] at ho
    simp only [Bool.not_false, if_true] at ho
    rw [Option.map_eq_some'] at ho
    obtain ⟨rows, hrows, ho'⟩ := ho
    subst ho'
    exact ⟨⟨rows, rfl⟩, rfl⟩
  · intro hall
    have h1 : listing.filter (fun f => pyStartsWith f "zoom_") = [] := by
      rw [List.filter_eq_nil_iff]
      intro f hf
      rw [List.all_eq_true] at hall
      have hh := hall f hf
      simp only [Bool.and_eq_true, Bool.not_eq_true'] at hh
      simp [hh.1]
    have h2 : listing.filter (fun f => pyStartsWith f "elevation_") = [] := by
      rw [List.filter_eq_nil_iff]
      intro f hf
      rw [List.all_eq_true] at hall
      have hh := hall f hf
      simp only [Bool.and_eq_true, Bool.not_eq_true'] at hh
      simp [hh.2]
    rw [runBatch, h1, h2]
    rfl

/-- Witness for C7: a mixed directory runs in mode A; a directory with no
matching files yields the empty outcome with no file written. -/
theorem c7_mode_selection_witness :
    (mixedListing.any (fun f => pyStartsWith f "zoom_") = true) ∧
    (∀ o, runBatch mixedListing constDecode = some o →
      (∃ rows, o.result = BatchResult.zoomRows rows) ∧
        o.written = some "zoom_analysis.json") ∧
    (unrelatedListing.all
        (fun f => !pyStartsWith f "zoom_" && !pyStartsWith f "elevation_") = true) ∧
    runBatch unrelatedListing constDecode =
      some { result := BatchResult.elevationMap [], written := none,
             notice := some "No screenshots found!" } :=
  ⟨by decide, (c7_mode_selection mixedListing constDecode).1 (by decide), by decide,
    (c7_mode_selection unrelatedListing constDecode).2 (by decide)⟩

theorem filter_map_congr {α β : Type} (l : List α) (f g : α → β) (q : β → Bool)
    (h : ∀ a ∈ l, f a = g a ∨ (q (f a) = false ∧ q (g a) = false)) :
    (l.map f).filter q = (l.map g).filter q := by
  induction l with
  | nil => rfl
  | cons a t ih =>
    have hrest := ih (fun x hx => h x (List.mem_cons_of_mem _ hx))
    rcases h a (List.mem_cons_self _ _) with he | ⟨h1, h2⟩
    · rw [List.map_cons, List.map_cons, List.filter_cons, List.filter_cons, he, hrest]
    · rw [List.map_cons, List.map_cons, List.filter_cons, List.filter_cons, h1, h2, hrest]
      simp

/-- C8: an in-bounds window pixel with fewer than 3 channels is skipped:
its value does not influence the record at all, `total_pixels` falls
strictly short of the in-bounds window size, and the classification still
succeeds with no error record. -/
theorem c8_short_pixel_skipped (img : Image) (x0 y0 : Int)
    (hwin : ((x0, y0) : Int × Int) ∈ windowCoords img)
    (hin : inBounds img (x0, y0) = true)
    (hlen : (img.pixel x0 y0).length < 3) :
    colorStats (setPixel img x0 y0 []) = colorStats img ∧
    (colorStats img).total_pixels <
      ((windowCoords img).filter (inBounds img)).length ∧
    analyze_image (Except.ok img) = AnalysisRecord.ok (colorStats img) := by
  refine ⟨?_, ?_, rfl⟩
  · rw [colorStats_def, colorStats_def]
    congr 1
    show ((((windowCoords img).filter (inBounds img)).map
        (fun p => (setPixel img x0 y0 []).pixel p.1 p.2)).filter
          (fun px => decide (3 ≤ px.length))) =
      ((((windowCoords img).filter (inBounds img)).map
        (fun p => img.pixel p.1 p.2)).filter (fun px => decide (3 ≤ px.length)))
    apply filter_map_congr
    intro p hp
    by_cases hpa : p = (x0, y0)
    · right
      subst hpa
      constructor
      · show decide (3 ≤ (if x0 = x0 ∧ y0 = y0 then ([] : List Nat)
            else img.pixel x0 y0).length) = false
        rw [if_pos ⟨rfl, rfl⟩]
        decide
      · show decide (3 ≤ (img.pixel x0 y0).length) = false
        simp only [decide_eq_false_iff_not]
        omega
    · left
      show (if p.1 = x0 ∧ p.2 = y0 then ([] : List Nat) else img.pixel p.1 p.2) =
        img.pixel p.1 p.2
      rw [if_neg]
      rintro ⟨h1, h2⟩
      apply hpa
      rw [Prod.ext_iff]
      exact ⟨h1, h2⟩
  · have hmem : img.pixel x0 y0 ∈
        (((windowCoords img).filter (inBounds img)).map (fun p => img.pixel p.1 p.2)) := by
      rw [List.mem_map]
      exact ⟨(x0, y0), List.mem_filter.mpr ⟨hwin, hin⟩, rfl⟩
    have e1 : (sampledPixels img).length =
        (((windowCoords img).filter (inBounds img)).map
          (fun p => img.pixel p.1 p.2)).countP (fun px => decide (3 ≤ px.length)) := by
      rw [sampledPixels, List.countP_eq_length_filter]
    rw [colorStats_def, statsOfPixels_total, e1]
    have hle : (((windowCoords img).filter (inBounds img)).map
        (fun p => img.pixel p.1 p.2)).countP (fun px => decide (3 ≤ px.length)) ≤
        (((windowCoords img).filter (inBounds img)).map
          (fun p => img.pixel p.1 p.2)).length :=
      List.countP_le_length _
    have hne : (((windowCoords img).filter (inBounds img)).map
        (fun p => img.pixel p.1 p.2)).countP (fun px => decide (3 ≤ px.length)) ≠
        (((windowCoords img).filter (inBounds img)).map
          (fun p => img.pixel p.1 p.2)).length := by
      intro heq
      have hall := List.countP_eq_length.mp heq _ hmem
      simp only [decide_eq_true_eq] at hall
      omega
    have hlen2 : (((windowCoords img).filter (inBounds img)).map
        (fun p => img.pixel p.1 p.2)).length =
        ((windowCoords img).filter (inBounds img)).length := List.length_map _ _
    omega

set_option maxRecDepth 200000 in
/-- Witness for C8 at a 2x2 image whose origin pixel has one channel. -/
theorem c8_short_pixel_witness :
    ((0, 0) : Int × Int) ∈ windowCoords shortPixelImage ∧
    inBounds shortPixelImage (0, 0) = true ∧
    (shortPixelImage.pixel 0 0).length < 3 ∧
    (colorStats (setPixel shortPixelImage 0 0 []) = colorStats shortPixelImage ∧
      (colorStats shortPixelImage).total_pixels <
        ((windowCoords shortPixelImage).filter (inBounds shortPixelImage)).length ∧
      analyze_image (Except.ok shortPixelImage) =
        AnalysisRecord.ok (colorStats shortPixelImage)) :=
  ⟨by decide, by decide, by decide,
    c8_short_pixel_skipped shortPixelImage 0 0 (by decide) (by decide) (by decide)⟩

/-- C9: `avg_color` is the triple of exact per-channel means rounded to
integers, and each component is within 1/2 of the exact mean (a nearest
integer). -/
theorem c9_avg_color_rounding (img : Image) (h : 0 < (colorStats img).total_pixels) :
    (colorStats img).avg_color =
      (pyRound ((channelSum (sampledPixels img) 0 : ℚ) / ((colorStats img).total_pixels : ℚ)),
       pyRound ((channelSum (sampledPixels img) 1 : ℚ) / ((colorStats img).total_pixels : ℚ)),
       pyRound ((channelSum (sampledPixels img) 2 : ℚ) / ((colorStats img).total_pixels : ℚ))) ∧
    |((colorStats img).avg_color.1 : ℚ) -
        (channelSum (sampledPixels img) 0 : ℚ) / ((colorStats img).total_pixels : ℚ)| ≤ 1/2 ∧
    |((colorStats img).avg_color.2.1 : ℚ) -
        (channelSum (sampledPixels img) 1 : ℚ) / ((colorStats img).total_pixels : ℚ)| ≤ 1/2 ∧
    |((colorStats img).avg_color.2.2 : ℚ) -
        (channelSum (sampledPixels img) 2 : ℚ) / ((colorStats img).total_pixels : ℚ)| ≤ 1/2 := by
  have h' : 0 < (sampledPixels img).length := h
  have havg : (colorStats img).avg_color =
      (pyRound ((channelSum (sampledPixels img) 0 : ℚ) / ((sampledPixels img).length : ℚ)),
       pyRound ((channelSum (sampledPixels img) 1 : ℚ) / ((sampledPixels img).length : ℚ)),
       pyRound ((channelSum (sampledPixels img) 2 : ℚ) / ((sampledPixels img).length : ℚ))) := by
    rw [colorStats_def, statsOfPixels_avg, if_pos h', if_pos h', if_pos h']
  refine ⟨havg, ?_, ?_, ?_⟩ <;> rw [havg] <;>
    simpa using pyRound_nearest _

set_option maxRecDepth 200000 in
/-- Witness for C9 at a 1x1 image with channels (10, 20, 30). -/
theorem c9_avg_color_witness :
    0 < (colorStats avgImage).total_pixels ∧
    (colorStats avgImage).avg_color = (10, 20, 30) := by
  have h : 0 < (colorStats avgImage).total_pixels := by decide
  refine ⟨h, ?_⟩
  have h1 := (c9_avg_color_rounding avgImage h).1
  have e0 : channelSum (sampledPixels avgImage) 0 = 10 := by decide
  have e1 : channelSum (sampledPixels avgImage) 1 = 20 := by decide
  have e2 : channelSum (sampledPixels avgImage) 2 = 30 := by decide
  have et : (colorStats avgImage).total_pixels = 1 := by decide
  rw [e0, e1, e2, et] at h1
  rw [h1]
  have p0 : pyRound (((10:ℕ) : ℚ) / ((1:ℕ) : ℚ)) = 10 := by
    apply pyRound_eq_of_lt_half <;> push_cast <;> norm_num
  have p1 : pyRound (((20:ℕ) : ℚ) / ((1:ℕ) : ℚ)) = 20 := by
    apply pyRound_eq_of_lt_half <;> push_cast <;> norm_num
  have p2 : pyRound (((30:ℕ) : ℚ) / ((1:ℕ) : ℚ)) = 30 := by
    apply pyRound_eq_of_lt_half <;> push_cast <;> norm_num
  rw [p0, p1, p2]

end Flooding
